import Mathlib

/-!
A shallow embedding of the storage core of simpledb-py (a teaching-grade
relational storage engine) together with proofs that check its
natural-language specification against the code.

Pages are byte buffers modelled as `List Nat` (each entry a byte value),
machine integers are `Int` with explicit two's-complement conversion at
the 32-bit boundary, and fallible Python code is modelled with `Except`.
Every definition is translated from the Python source in
`src/simpledbpy`, method by method.
-/

namespace SimpleDB

/-- Error kinds surfaced by the Python code: `ValueError` with its message,
`struct.error` from `struct.pack`/`struct.unpack` on a wrong-sized buffer
or an out-of-range value, `RuntimeError` from `BufferList.get_buffer`,
and an explicit marker for a negative index reaching a slice operation
(not exercised by any theorem below). -/
inductive PyErr where
  | valueError (msg : String)
  | structError
  | runtimeError
  | lockAbort
  | negativeIndex
  deriving Repr, DecidableEq

/-- A page buffer: the `bytearray` of `Page._byte_buffer`, one `Nat` per byte. -/
abbrev PageBuf := List Nat

/-- `struct.unpack(">i", b)` for a 4-byte buffer: signed big-endian 32-bit
decode.  Defined on the 4 leading entries of the list. -/
def decodeInt4 (b : PageBuf) : Int :=
  let n : Nat := b.headD 0 * 16777216 + (b.drop 1).headD 0 * 65536 +
    (b.drop 2).headD 0 * 256 + (b.drop 3).headD 0
  if n < 2147483648 then (n : Int) else (n : Int) - 4294967296

/-- `struct.pack(">i", v)`: big-endian two's-complement encoding of a
32-bit signed integer as 4 bytes. -/
def encodeInt4 (v : Int) : PageBuf :=
  let n : Nat := (v % 4294967296).toNat
  [n / 16777216, n / 65536 % 256, n / 256 % 256, n % 256]

/-- In-place slice assignment `buf[offset : offset + len(bs)] = bs`
for an in-bounds, exact-size slice. -/
def writeAt (p : PageBuf) (offset : Nat) (bs : PageBuf) : PageBuf :=
  p.take offset ++ bs ++ p.drop (offset + bs.length)

namespace Page

/-- `Page.get_int`: the guard `len(self._byte_buffer) <= offset` raises
`ValueError("Offset is out of bounds")`; otherwise the 4-byte slice
`buf[offset : offset + 4]` is unpacked, and `struct.unpack` raises
`struct.error` when the slice is shorter than 4 bytes. -/
def get_int (p : PageBuf) (offset : Nat) : Except PyErr Int :=
  if p.length ≤ offset then .error (.valueError "Offset is out of bounds")
  else
    let slice := (p.drop offset).take 4
    if slice.length = 4 then .ok (decodeInt4 slice) else .error .structError

/-- `Page.set_int`: the guard `len(self._byte_buffer) < offset + 4` raises
`ValueError("Byte buffer too small to set the given integer")`; then
`struct.pack(">i", value)` raises `struct.error` outside the 32-bit
signed range; otherwise the 4 encoded bytes replace the slice. -/
def set_int (p : PageBuf) (offset : Nat) (v : Int) : Except PyErr PageBuf :=
  if p.length < offset + 4 then
    .error (.valueError "Byte buffer too small to set the given integer")
  else if v < -2147483648 ∨ 2147483648 ≤ v then .error .structError
  else .ok (writeAt p offset (encodeInt4 v))

/-- `Page.get_bytes`: bounds guard, then read the 4-byte length prefix via
`get_int` and return the (possibly clamped, as for a Python slice)
content slice. -/
def get_bytes (p : PageBuf) (offset : Nat) : Except PyErr PageBuf :=
  if p.length ≤ offset then .error (.valueError "Offset is out of bounds")
  else do
    let length ← get_int p offset
    .ok ((p.drop (offset + 4)).take length.toNat)

/-- `Page.set_bytes`: guard `len(buf) < offset + 4 + len(b)`, then
`set_int(offset, len(b))` followed by the content slice assignment. -/
def set_bytes (p : PageBuf) (offset : Nat) (b : PageBuf) : Except PyErr PageBuf :=
  if p.length < offset + (4 + b.length) then
    .error (.valueError "Byte buffer too small to set the given bytes")
  else do
    let p1 ← set_int p offset (b.length : Int)
    .ok (writeAt p1 (offset + 4) b)

/-- `Page.get_string`: strings are modelled as their ASCII byte lists, so
this is `get_bytes` (the `decode` step is the identity on the bytes). -/
def get_string (p : PageBuf) (offset : Nat) : Except PyErr PageBuf :=
  get_bytes p offset

/-- `Page.set_string`: `set_bytes` of the encoded (byte-list) string. -/
def set_string (p : PageBuf) (offset : Nat) (s : PageBuf) : Except PyErr PageBuf :=
  set_bytes p offset s

/-- `Page.max_length(strlen) = 4 + strlen` (one byte per ASCII char). -/
def max_length (strlen : Nat) : Nat := 4 + strlen

end Page

/-- A well-formed byte buffer: every entry is an actual byte value. -/
def ByteWF (p : PageBuf) : Prop := ∀ x ∈ p, x < 256

/-!  ## Transaction numbering (`Transaction._next_tx_number`)

The Python class declares `_next_txnum: int = 0`, a single class
attribute.  `_next_tx_number` executes `self._next_txnum += 1`, which
desugars to a read of `self._next_txnum` — the instance attribute if
present, else the class attribute — followed by an assignment that
always creates/updates the *instance* attribute, leaving the class
attribute untouched. -/

/-- The class-level state shared by all `Transaction` instances. -/
structure TransactionClassState where
  next_txnum : Int
  deriving Repr, DecidableEq

/-- The class attribute as initialised by `_next_txnum: int = 0`. -/
def transactionClassInit : TransactionClassState := ⟨0⟩

/-- One `Transaction` instance, restricted to the numbering fields:
`_txnum` and the per-instance `_next_txnum` attribute (absent on a
fresh instance). -/
structure TransactionInst where
  next_txnum_inst : Option Int
  txnum : Int
  deriving Repr, DecidableEq

/-- `Transaction._next_tx_number`: `self._next_txnum += 1` reads the
instance attribute (falling back to the class attribute), adds one, and
stores the result as an instance attribute; returns the new value.  The
class attribute is returned unchanged, exactly as in Python. -/
def next_tx_number (cls : TransactionClassState) (inst : Option Int) :
    Int × Option Int × TransactionClassState :=
  let v := (inst.getD cls.next_txnum) + 1
  (v, some v, cls)

/-- The txnum assignment in `Transaction.__init__`
(`self._txnum = self._next_tx_number()`): a fresh instance has no
instance attributes, so the read falls back to the class attribute. -/
def transactionNew (cls : TransactionClassState) :
    TransactionInst × TransactionClassState :=
  let r := next_tx_number cls none
  ({ next_txnum_inst := r.2.1, txnum := r.1 }, r.2.2)

/-!  ## Blocks, the log-flush path and `Buffer.flush` (WAL ordering)  -/

/-- `BlockId`: an immutable `(filename, block_number)` pair with
structural equality.  The block number is an `Int` because the sentinel
block uses −1. -/
structure BlockId where
  filename : String
  block_number : Int
  deriving Repr, DecidableEq

/-- The slice of `LogManager` state that `LogManager.flush` reads and
writes: the two LSN counters.  `latest_lsn` is bumped by `append`;
`last_saved_lsn` (the source's `_lagest_saved_lsn`) bounds the durable
prefix of the log. -/
structure LogFlushView where
  latest_lsn : Int
  last_saved_lsn : Int
  deriving Repr, DecidableEq

/-- One disk write performed during `Buffer.flush`, stamped with the
value of `_lagest_saved_lsn` — the log durability bound — at the moment
the write happens.  `dataWrite` is the `FileManager.write` of the
frame's page to its data block; `logPageWrite` is the write of the log
page performed by `LogManager._flush`. -/
inductive FlushEvent where
  | logPageWrite (lastSavedAfter : Int)
  | dataWrite (blk : BlockId) (logDurableUpTo : Int)
  deriving Repr, DecidableEq

/-- `LogManager.flush(lsn)`: if `lsn >= self._lagest_saved_lsn`, call
`_flush`, which writes the log page and sets
`_lagest_saved_lsn := _latest_lsn`. -/
def logManagerFlush (lm : LogFlushView) (lsn : Int) :
    LogFlushView × List FlushEvent :=
  if lm.last_saved_lsn ≤ lsn then
    let lm2 : LogFlushView := { lm with last_saved_lsn := lm.latest_lsn }
    (lm2, [.logPageWrite lm2.last_saved_lsn])
  else (lm, [])

/-- A buffer frame (`Buffer`), restricted to the status fields that
`Buffer.flush` consults (the page contents are irrelevant to the write
ordering). -/
structure BufferFrameStatus where
  block_id : Option BlockId
  txnum : Int
  lsn : Int
  deriving Repr, DecidableEq

/-- `Buffer.flush`: when `self._txnum >= 0 and self._block_id is not
None`, force the log up to the frame's `_lsn`, then write the page to
the frame's data block, then reset `_txnum := -1`.  The event list
records the disk writes in program order. -/
def bufferFlush (b : BufferFrameStatus) (lm : LogFlushView) :
    BufferFrameStatus × LogFlushView × List FlushEvent :=
  if 0 ≤ b.txnum then
    match b.block_id with
    | some blk =>
      let r := logManagerFlush lm b.lsn
      ({ b with txnum := -1 }, r.1,
        r.2 ++ [.dataWrite blk r.1.last_saved_lsn])
    | none => (b, lm, [])
  else (b, lm, [])

/-!  ## The buffer pool (`BufferManager`) and the transaction pin list  -/

/-- A pool frame, restricted to the fields `pin`/`unpin`/`_try_to_pin`
consult: the bound block and the pin count. -/
structure PoolFrame where
  block_id : Option BlockId
  pins : Nat
  deriving Repr, DecidableEq

/-- The buffer pool: the frame array, `_num_available`, and a count of
`notify_all` calls on the pool's condition variable (so that waiter
wake-ups are observable in the model). -/
structure BufferPool where
  frames : List PoolFrame
  num_available : Int
  notify_count : Nat
  deriving Repr, DecidableEq

/-- `BufferManager._find_existing_buffer`: the first frame whose
`block_id` equals the requested block. -/
def findExistingBuffer (frames : List PoolFrame) (blk : BlockId) : Option Nat :=
  frames.findIdx? (fun f => f.block_id = some blk)

/-- `BufferManager._choose_unpinned_buffer`: the first unpinned frame. -/
def chooseUnpinnedBuffer (frames : List PoolFrame) : Option Nat :=
  frames.findIdx? (fun f => f.pins = 0)

/-- The tail of `_try_to_pin` once a frame is chosen:
`if not buffer.is_pinned(): self._num_available -= 1` then
`buffer.pin()`. -/
def pinFrameAt (pool : BufferPool) (i : Nat) : BufferPool :=
  match pool.frames[i]? with
  | none => pool
  | some f =>
    { pool with
      frames := pool.frames.set i { f with pins := f.pins + 1 },
      num_available :=
        if f.pins = 0 then pool.num_available - 1 else pool.num_available }

/-- `BufferManager._try_to_pin`: reuse a frame already holding the
block, else choose an unpinned frame and `assign_to_block` it (the
flush-and-read I/O of `assign_to_block` is not tracked here; it resets
the frame's `_pins` to 0), then pin; `none` when every frame is pinned. -/
def tryToPin (pool : BufferPool) (blk : BlockId) : Option (BufferPool × Nat) :=
  match findExistingBuffer pool.frames blk with
  | some i => some (pinFrameAt pool i, i)
  | none =>
    match chooseUnpinnedBuffer pool.frames with
    | none => none
    | some i =>
      let pool1 : BufferPool :=
        { pool with frames := pool.frames.set i { block_id := some blk, pins := 0 } }
      some (pinFrameAt pool1 i, i)

/-- `BufferManager.MAX_TIME` (seconds). -/
def MAX_TIME : Nat := 10

/-- `BufferManager._waiting_too_long(start_time)`:
`time.time() - start_time > MAX_TIME`; `elapsed` stands for the
wall-clock difference. -/
def waiting_too_long (elapsed : Nat) : Bool := MAX_TIME < elapsed

/-- Result of `BufferManager.pin`: the pinned frame's index, or a
`BufferAbortError`; `waits` counts how many times the call waited on
the condition variable before returning. -/
inductive PinResult where
  | ok (pool : BufferPool) (idx : Nat) (waits : Nat)
  | abort (pool : BufferPool) (waits : Nat)
  deriving Repr, DecidableEq

/-- The `while buffer is None and self._waiting_too_long(timestamp)`
loop of `BufferManager.pin`, entered with the previous `_try_to_pin`
having returned `None`.  `clock i` is the elapsed wall-clock time at the
i-th guard check; `wait i` is the pool state after the i-th `cv.wait`
(other threads may unpin).  Fuel bounds the unbounded Python loop; the
fuel-exhaustion branch is never reached in the theorems below. -/
def pinLoop (blk : BlockId) (wait : Nat → BufferPool → BufferPool)
    (clock : Nat → Nat) : Nat → Nat → BufferPool → PinResult
  | fuel, i, pool =>
    if waiting_too_long (clock i) then
      match fuel with
      | 0 => .abort pool i
      | fuel + 1 =>
        let pool2 := wait i pool
        match tryToPin pool2 blk with
        | some (pool3, idx) => .ok pool3 idx (i + 1)
        | none => pinLoop blk wait clock fuel (i + 1) pool2
    else .abort pool i

/-- `BufferManager.pin(block_id)`: try to pin; on failure run the retry
loop; raise `BufferAbortError` if the loop ends without a frame. -/
def bufferManagerPin (pool : BufferPool) (blk : BlockId)
    (wait : Nat → BufferPool → BufferPool) (clock : Nat → Nat)
    (fuel : Nat) : PinResult :=
  match tryToPin pool blk with
  | some (pool2, idx) => .ok pool2 idx 0
  | none => pinLoop blk wait clock fuel 0 pool

/-- `BufferManager.unpin(buffer)`: decrement the frame's pin count; if
it is no longer pinned, increment `_num_available` and notify all
waiters. -/
def bufferManagerUnpin (pool : BufferPool) (i : Nat) : BufferPool :=
  match pool.frames[i]? with
  | none => pool
  | some f =>
    let f2 : PoolFrame := { f with pins := f.pins - 1 }
    if f2.pins = 0 then
      { frames := pool.frames.set i f2,
        num_available := pool.num_available + 1,
        notify_count := pool.notify_count + 1 }
    else { pool with frames := pool.frames.set i f2 }

/-- `Buffer.unpin` — the *frame* method: `self._pins -= 1` and nothing
else; `_num_available` and the condition variable are untouched. -/
def frameUnpin (pool : BufferPool) (i : Nat) : BufferPool :=
  match pool.frames[i]? with
  | none => pool
  | some f =>
    { pool with frames := pool.frames.set i { f with pins := f.pins - 1 } }

/-- `BufferList` (`transaction.py`): `_buffers` maps each pinned block
to its frame (here: the frame's pool index) and `_pins` is the multiset
of pinned blocks. -/
structure BufferListState where
  buffers : List (BlockId × Nat)
  pins : List BlockId
  deriving Repr, DecidableEq

/-- `BufferList.unpin(block_id)`: look the buffer up; if present call
`buffer.unpin()` — the frame method, not `BufferManager.unpin` — then
remove one occurrence from `_pins` and drop the `_buffers` entry when no
occurrence remains. -/
def bufferListUnpin (bl : BufferListState) (pool : BufferPool)
    (blk : BlockId) : BufferListState × BufferPool :=
  match bl.buffers.lookup blk with
  | none => (bl, pool)
  | some i =>
    let pool2 := frameUnpin pool i
    let pins2 := bl.pins.erase blk
    let buffers2 :=
      if pins2.contains blk then bl.buffers
      else bl.buffers.filter (fun e => !(e.1 == blk))
    ({ buffers := buffers2, pins := pins2 }, pool2)

/-!  ## Transaction lifecycle: commit / rollback / recover cleanup  -/

/-- Lock modes recorded by the per-transaction `ConcurrencyManager`
(`"S"` / `"X"` strings in the source). -/
inductive LockMode where
  | S
  | X
  deriving Repr, DecidableEq

/-- The §4.6 recovery-manager actions, kept as an abstract trace so the
three terminal operations stay distinguishable in the model. -/
inductive TxAction where
  | flushAll (txnum : Int)
  | commitRecordForced (txnum : Int)
  | rollbackWalk (txnum : Int)
  | rollbackRecordForced (txnum : Int)
  | recoverWalk
  | checkpointForced
  deriving Repr, DecidableEq

/-- The lifecycle view of one `Transaction`: its txnum, the concurrency
manager's lock map `_locks`, the buffer list's pin list `_pins`, and the
trace of recovery actions performed so far. -/
structure TxLifecycleState where
  txnum : Int
  locks : List (BlockId × LockMode)
  pins : List BlockId
  trace : List TxAction
  deriving Repr, DecidableEq

/-- `ConcurrencyManager.release()`: return every held lock to the global
table and clear the map. -/
def concurrencyRelease (t : TxLifecycleState) : TxLifecycleState :=
  { t with locks := [] }

/-- `BufferList.unpin_all()`: unpin every remaining frame at the pool
and clear `_buffers` and `_pins`. -/
def bufferListUnpinAll (t : TxLifecycleState) : TxLifecycleState :=
  { t with pins := [] }

/-- `RecoveryManager.commit()`: flush the transaction's buffers, then
append and force a COMMIT record. -/
def recoveryCommit (t : TxLifecycleState) : TxLifecycleState :=
  { t with trace := t.trace ++ [.flushAll t.txnum, .commitRecordForced t.txnum] }

/-- `RecoveryManager.rollback()`: undo-walk the log, flush the
transaction's buffers, then append and force a ROLLBACK record. -/
def recoveryRollback (t : TxLifecycleState) : TxLifecycleState :=
  { t with trace := t.trace ++
      [.rollbackWalk t.txnum, .flushAll t.txnum, .rollbackRecordForced t.txnum] }

/-- `RecoveryManager.recover()`: recover-walk the log, flush, then
append and force a CHECKPOINT record. -/
def recoveryRecover (t : TxLifecycleState) : TxLifecycleState :=
  { t with trace := t.trace ++ [.recoverWalk, .flushAll t.txnum, .checkpointForced] }

/-- `Transaction.commit()`: recovery-manager commit, then
`ConcurrencyManager.release()`, then `BufferList.unpin_all()`. -/
def transactionCommit (t : TxLifecycleState) : TxLifecycleState :=
  bufferListUnpinAll (concurrencyRelease (recoveryCommit t))

/-- `Transaction.rollback()`: recovery-manager rollback, then release
all locks, then unpin all frames. -/
def transactionRollback (t : TxLifecycleState) : TxLifecycleState :=
  bufferListUnpinAll (concurrencyRelease (recoveryRollback t))

/-- `Transaction.recover()`: `self._buffer_manager.flush_all(self._txnum)`
then `self._recovery_manager.recover()` — and nothing else: no
`release()`, no `unpin_all()`. -/
def transactionRecover (t : TxLifecycleState) : TxLifecycleState :=
  recoveryRecover { t with trace := t.trace ++ [.flushAll t.txnum] }

/-!  ## Logged mutations and rollback (`RecoveryManager`)

This section models the effect of a transaction's logged `set_int` /
`set_string` mutations on one pinned block together with the log
records they append, and `RecoveryManager._do_rollback`.  The records
carry the transaction number and the offset/old-value payload; since
the claim concerns a single block, the records' block reference is the
block under consideration.  `undo` pins that block, performs the plain
(`ok_to_log = False`) page write of the old value, and unpins; its
page-level effect is the write. -/

/-- One logged mutation issued by the transaction on its pinned block:
`set_int(block, off, v, True)` or `set_string(block, off, s, True)`. -/
inductive TxOp where
  | setIntOp (offset : Nat) (value : Int)
  | setStringOp (offset : Nat) (value : PageBuf)
  deriving Repr, DecidableEq

/-- Whether a mutation is a `set_int`. -/
def TxOp.isSetInt : TxOp → Bool
  | .setIntOp _ _ => true
  | .setStringOp _ _ => false

/-- A decoded log record as seen by `_do_rollback` (the `LogRecord`
subclasses of `recovery.py`): CHECKPOINT / START / COMMIT / ROLLBACK
carry no undo data; SETINT / SETSTRING carry the offset and OLD value. -/
inductive LogRec where
  | checkpoint
  | start (txnum : Int)
  | commit (txnum : Int)
  | rollbackRec (txnum : Int)
  | setInt (txnum : Int) (offset : Nat) (old : Int)
  | setString (txnum : Int) (offset : Nat) (old : PageBuf)
  deriving Repr, DecidableEq

/-- `LogRecord.tx_number()`: −1 for CHECKPOINT (its "dummy" txid). -/
def LogRec.txNumber : LogRec → Int
  | .checkpoint => -1
  | .start t => t
  | .commit t => t
  | .rollbackRec t => t
  | .setInt t _ _ => t
  | .setString t _ _ => t

/-- `LogRecord.undo(tx)` as it acts on the block's page: a no-op except
for SETINT / SETSTRING, which write the saved old value back at the
saved offset with `ok_to_log = False`. -/
def LogRec.undo (p : PageBuf) : LogRec → Except PyErr PageBuf
  | .setInt _ off old => Page.set_int p off old
  | .setString _ off old => Page.set_string p off old
  | _ => .ok p

/-- One logged mutation: `RecoveryManager.set_int` / `set_string` reads
the OLD value from the page and appends the SETxxx record; then
`Transaction.set_int` / `set_string` writes the new value into the
page. -/
def applyLoggedOp (txn : Int) (p : PageBuf) :
    TxOp → Except PyErr (PageBuf × LogRec)
  | .setIntOp off v =>
    match Page.get_int p off with
    | .error e => .error e
    | .ok old =>
      match Page.set_int p off v with
      | .error e => .error e
      | .ok p2 => .ok (p2, .setInt txn off old)
  | .setStringOp off s =>
    match Page.get_string p off with
    | .error e => .error e
    | .ok old =>
      match Page.set_string p off s with
      | .error e => .error e
      | .ok p2 => .ok (p2, .setString txn off old)

/-- A sequence of logged mutations in program order; returns the final
page and the appended records in log order (oldest first). -/
def applyLoggedOps (txn : Int) (p : PageBuf) :
    List TxOp → Except PyErr (PageBuf × List LogRec)
  | [] => .ok (p, [])
  | op :: ops =>
    match applyLoggedOp txn p op with
    | .error e => .error e
    | .ok r =>
      match applyLoggedOps txn r.1 ops with
      | .error e => .error e
      | .ok s => .ok (s.1, r.2 :: s.2)

/-- `RecoveryManager._do_rollback`: iterate the log newest-first,
undoing every record whose `tx_number()` matches this transaction, and
stop at this transaction's START record. -/
def doRollback (txn : Int) (p : PageBuf) : List LogRec → Except PyErr PageBuf
  | [] => .ok p
  | r :: rest =>
    if r.txNumber = txn then
      match r with
      | .start _ => .ok p
      | _ =>
        match r.undo p with
        | .error e => .error e
        | .ok p2 => doRollback txn p2 rest
    else doRollback txn p rest

/-!  ## Lock table, concurrency manager and transaction data access  -/

/-- Python `dict` assignment `m[k] = v` on an association list: replace
the entry if the key is present, else add it. -/
def assocSet {α β : Type} [BEq α] (m : List (α × β)) (k : α) (v : β) :
    List (α × β) :=
  if m.any (fun e => e.1 == k) then
    m.map (fun e => if e.1 == k then (k, v) else e)
  else m ++ [(k, v)]

/-- The global `LockTable`: `_locks : Dict[BlockId, int]` (0/absent =
unlocked, positive = shared-holder count, −1 = exclusive). -/
structure LockTableState where
  locks : List (BlockId × Int)
  deriving Repr, DecidableEq

/-- `LockTable._get_lock_val`: the table value, 0 when absent. -/
def lockVal (lt : LockTableState) (blk : BlockId) : Int :=
  (lt.locks.lookup blk).getD 0

/-- `LockTable.slock`: when no XLock is held the lock is granted at once
(`val + 1`).  When an XLock is held the Python code waits on the
condition variable up to the timeout; that wall-clock path is modelled
as the timeout outcome `LockAbortError` (none of the theorems below
enter this branch). -/
def lockTableSlock (lt : LockTableState) (blk : BlockId) :
    Except PyErr LockTableState :=
  if lockVal lt blk < 0 then .error .lockAbort
  else .ok { locks := assocSet lt.locks blk (lockVal lt blk + 1) }

/-- `LockTable.xlock`: when no other shared holder exists (`val ≤ 1`,
the caller's own SLock being the one) the value is set to −1; otherwise
the code waits, modelled as the timeout outcome (not entered below). -/
def lockTableXlock (lt : LockTableState) (blk : BlockId) :
    Except PyErr LockTableState :=
  if 1 < lockVal lt blk then .error .lockAbort
  else .ok { locks := assocSet lt.locks blk (-1) }

/-- `ConcurrencyManager.slock`: ask the global table for an SLock only
if this transaction holds no lock on the block yet, then record `"S"`. -/
def concMgrSlock (cm : List (BlockId × LockMode)) (lt : LockTableState)
    (blk : BlockId) : Except PyErr (List (BlockId × LockMode) × LockTableState) :=
  match cm.lookup blk with
  | some _ => .ok (cm, lt)
  | none =>
    match lockTableSlock lt blk with
    | .error e => .error e
    | .ok lt2 => .ok ((blk, .S) :: cm, lt2)

/-- `ConcurrencyManager.xlock`: no-op when an XLock is already recorded;
otherwise take an SLock first (if necessary), then the global XLock, and
upgrade the record to `"X"`. -/
def concMgrXlock (cm : List (BlockId × LockMode)) (lt : LockTableState)
    (blk : BlockId) : Except PyErr (List (BlockId × LockMode) × LockTableState) :=
  if cm.lookup blk = some .X then .ok (cm, lt)
  else
    match concMgrSlock cm lt blk with
    | .error e => .error e
    | .ok r =>
      match lockTableXlock r.2 blk with
      | .error e => .error e
      | .ok lt2 => .ok (assocSet r.1 blk .X, lt2)

/-- The data-access view of one `Transaction`: its concurrency-manager
lock map, the global lock table, and its `BufferList` (`_buffers` maps
each pinned block to the pinned frame's page contents; `_pins` is the
pin multiset). -/
structure TxDataState where
  conc : List (BlockId × LockMode)
  table : LockTableState
  buffers : List (BlockId × PageBuf)
  pins : List BlockId
  deriving Repr, DecidableEq

/-- `BufferList.get_buffer`: `self._buffers.get(block_id)`; `None`
raises a bare `RuntimeError`. -/
def bufferListGetBuffer (st : TxDataState) (blk : BlockId) :
    Except PyErr PageBuf :=
  match st.buffers.lookup blk with
  | none => .error .runtimeError
  | some pg => .ok pg

/-- `Transaction.get_int`: `slock` the block, then fetch the pinned
buffer (which raises if the block is not pinned), then read the page.
The returned state carries the mutations made before any raise. -/
def transactionGetInt (st : TxDataState) (blk : BlockId) (off : Nat) :
    TxDataState × Except PyErr Int :=
  match concMgrSlock st.conc st.table blk with
  | .error e => (st, .error e)
  | .ok (cm2, lt2) =>
    let st2 := { st with conc := cm2, table := lt2 }
    match bufferListGetBuffer st2 blk with
    | .error e => (st2, .error e)
    | .ok pg => (st2, Page.get_int pg off)

/-- `Transaction.get_string`: as `get_int` with the string codec. -/
def transactionGetString (st : TxDataState) (blk : BlockId) (off : Nat) :
    TxDataState × Except PyErr PageBuf :=
  match concMgrSlock st.conc st.table blk with
  | .error e => (st, .error e)
  | .ok (cm2, lt2) =>
    let st2 := { st with conc := cm2, table := lt2 }
    match bufferListGetBuffer st2 blk with
    | .error e => (st2, .error e)
    | .ok pg => (st2, Page.get_string pg off)

/-- `Transaction.set_int`: `xlock` the block, fetch the pinned buffer,
optionally read the old value for the SETINT log record
(`RecoveryManager.set_int`; the log append itself is modelled in the
recovery section), then write the new value into the page. -/
def transactionSetInt (st : TxDataState) (blk : BlockId) (off : Nat)
    (v : Int) (ok_to_log : Bool) : TxDataState × Except PyErr Unit :=
  match concMgrXlock st.conc st.table blk with
  | .error e => (st, .error e)
  | .ok (cm2, lt2) =>
    let st2 := { st with conc := cm2, table := lt2 }
    match bufferListGetBuffer st2 blk with
    | .error e => (st2, .error e)
    | .ok pg =>
      match (if ok_to_log then (Page.get_int pg off).map (fun _ => ()) else .ok ()) with
      | .error e => (st2, .error e)
      | .ok _ =>
        match Page.set_int pg off v with
        | .error e => (st2, .error e)
        | .ok pg2 => ({ st2 with buffers := assocSet st2.buffers blk pg2 }, .ok ())

/-- `Transaction.set_string`: as `set_int` with the string codec. -/
def transactionSetString (st : TxDataState) (blk : BlockId) (off : Nat)
    (s : PageBuf) (ok_to_log : Bool) : TxDataState × Except PyErr Unit :=
  match concMgrXlock st.conc st.table blk with
  | .error e => (st, .error e)
  | .ok (cm2, lt2) =>
    let st2 := { st with conc := cm2, table := lt2 }
    match bufferListGetBuffer st2 blk with
    | .error e => (st2, .error e)
    | .ok pg =>
      match (if ok_to_log then (Page.get_string pg off).map (fun _ => ()) else .ok ()) with
      | .error e => (st2, .error e)
      | .ok _ =>
        match Page.set_string pg off s with
        | .error e => (st2, .error e)
        | .ok pg2 => ({ st2 with buffers := assocSet st2.buffers blk pg2 }, .ok ())

/-!  ## The log manager (`LogManager.append`)  -/

/-- The `LogManager` state: the fixed block size, the in-memory tail
page `_log_page`, the number of the current (tail) block, the two LSN
counters, and the sequence of log-file writes performed so far (block
number and bytes, in write order). -/
structure LogMgrState where
  block_size : Nat
  log_page : PageBuf
  current_block_num : Nat
  latest_lsn : Int
  disk : List (Nat × PageBuf)
  last_saved_lsn : Int
  deriving Repr, DecidableEq

/-- `LogManager._flush`: write the current page to its block and set
`_lagest_saved_lsn := _latest_lsn`. -/
def logFlushState (st : LogMgrState) : LogMgrState :=
  { st with disk := st.disk ++ [(st.current_block_num, st.log_page)],
            last_saved_lsn := st.latest_lsn }

/-- `LogManager._append_new_block`: `FileManager.append` creates the
next block of the log file (its number is the file length in blocks,
one past the current tail block); then `boundary := block_size` is
written into the in-memory page — whose remaining bytes keep their old
contents — and the page is written to the new block. -/
def appendNewBlock (st : LogMgrState) : Except PyErr LogMgrState :=
  match Page.set_int st.log_page 0 (st.block_size : Int) with
  | .error e => .error e
  | .ok pg =>
    .ok { st with
          log_page := pg,
          current_block_num := st.current_block_num + 1,
          disk := st.disk ++ [(st.current_block_num + 1, pg)] }

/-- The record-placement tail of `LogManager.append`:
`record_position = boundary - bytes_needed`, then
`set_bytes(record_position, record)` and `set_int(0, record_position)`.
A negative position is flagged explicitly (Python's slice semantics
would silently wrap; the branch is unreachable under the log
invariant). -/
def logWriteRecordAt (p : PageBuf) (rp : Int) (record : PageBuf) :
    Except PyErr PageBuf :=
  if rp < 0 then .error .negativeIndex
  else
    match Page.set_bytes p rp.toNat record with
    | .error e => .error e
    | .ok pg2 =>
      match Page.set_int pg2 0 rp with
      | .error e => .error e
      | .ok pg3 => .ok pg3

/-- `LogManager.append(log_record)`: read the boundary; if the record
(plus its 4-byte length prefix) does not fit above offset 4, flush the
current page and append a fresh block (re-reading the boundary, now
`block_size`); place the record right-to-left; update the boundary;
increment and return `_latest_lsn`. -/
def logAppend (st : LogMgrState) (record : PageBuf) :
    Except PyErr (LogMgrState × Int) :=
  match Page.get_int st.log_page 0 with
  | .error e => .error e
  | .ok boundary =>
    let bytes_needed : Int := (record.length : Int) + 4
    match (if boundary - bytes_needed < 4 then
        (match appendNewBlock (logFlushState st) with
         | .error e => .error e
         | .ok st2 =>
           match Page.get_int st2.log_page 0 with
           | .error e => .error e
           | .ok b2 => .ok (st2, b2))
      else .ok (st, boundary) : Except PyErr (LogMgrState × Int)) with
    | .error e => .error e
    | .ok (st1, boundary1) =>
      match logWriteRecordAt st1.log_page (boundary1 - bytes_needed) record with
      | .error e => .error e
      | .ok pg3 =>
        .ok ({ st1 with log_page := pg3, latest_lsn := st1.latest_lsn + 1 },
          st1.latest_lsn + 1)

/-- The log-block invariant of §3 / §8: the page is one block long, the
block size admits at least one minimal record, and the boundary at
bytes 0..3 is between 4 and `block_size`. -/
def LogInv (st : LogMgrState) : Prop :=
  st.log_page.length = st.block_size ∧
  8 ≤ st.block_size ∧ (st.block_size : Int) < 2147483648 ∧
  ∃ bd : Int, Page.get_int st.log_page 0 = .ok bd ∧
    4 ≤ bd ∧ bd ≤ (st.block_size : Int)

/-- The `LogManager.__init__` bootstrap for an empty log file with a
16-byte block size: a zeroed page, then `_append_new_block` writes
`boundary = block_size` into block 0 of the log file. -/
def logBootState16 : LogMgrState :=
  { block_size := 16,
    log_page := writeAt (List.replicate 16 0) 0 (encodeInt4 16),
    current_block_num := 0,
    latest_lsn := 0,
    disk := [(0, writeAt (List.replicate 16 0) 0 (encodeInt4 16))],
    last_saved_lsn := 0 }

/-!  ## Schema, Layout and RecordPage (`record.py`)  -/

/-- The SQL field types (`Types.INTEGER` / `Types.VARCHAR`). -/
inductive FieldType where
  | integer
  | varchar
  deriving Repr, DecidableEq

/-- `FieldInfo`: the type and, for VARCHAR, the conceptual length. -/
structure FieldInfo where
  type : FieldType
  length : Nat
  deriving Repr, DecidableEq

/-- `Schema`: the ordered field list (`add_field` appends; `_info` is
carried per field). -/
structure Schema where
  fields : List (String × FieldInfo)
  deriving Repr, DecidableEq

/-- `Layout._length_in_bytes`: 4 bytes for INTEGER,
`Page.max_length(length)` for VARCHAR. -/
def lengthInBytes (fi : FieldInfo) : Nat :=
  match fi.type with
  | .integer => 4
  | .varchar => Page.max_length fi.length

/-- `Layout`: per-field offsets within a slot and the slot size. -/
structure Layout where
  schema : Schema
  offsets : List (String × Nat)
  slot_size : Nat
  deriving Repr, DecidableEq

/-- `Layout.__init__` with no catalog-supplied offsets: walk the fields
in declaration order, assigning offsets starting at position 4 (after
the 4-byte flag); the slot size is the final position. -/
def layoutFromSchema (s : Schema) : Layout :=
  let r := s.fields.foldl
    (fun (acc : List (String × Nat) × Nat) f =>
      (acc.1 ++ [(f.1, acc.2)], acc.2 + lengthInBytes f.2)) ([], 4)
  { schema := s, offsets := r.1, slot_size := r.2 }

/-- A `RecordPage` together with the page bytes of its pinned block:
reads and writes go through `Transaction.get_int` / `set_int` on the
pinned buffer (the locking around them is modelled in the data-access
section); `block_size` comes from the transaction. -/
structure RecordPageState where
  page : PageBuf
  layout : Layout
  block_size : Nat
  deriving Repr, DecidableEq

/-- `RecordPage._offset(slot) = slot * slot_size`. -/
def slotOffset (rp : RecordPageState) (slot : Int) : Int :=
  slot * rp.layout.slot_size

/-- `RecordPage._is_valid_slot(slot)`: `(slot+1) * slot_size ≤ block_size`. -/
def isValidSlot (rp : RecordPageState) (slot : Int) : Bool :=
  slotOffset rp (slot + 1) ≤ (rp.block_size : Int)

/-- `RecordPage._set_flag(slot, flag)` as it acts on the page: a
`set_int` of the flag word at the slot's offset (a negative offset is
flagged; the scans below only reach slots ≥ 0). -/
def setFlag (rp : RecordPageState) (slot : Int) (flag : Int) :
    Except PyErr RecordPageState :=
  if slotOffset rp slot < 0 then .error .negativeIndex
  else
    match Page.set_int rp.page (slotOffset rp slot).toNat flag with
    | .error e => .error e
    | .ok pg => .ok { rp with page := pg }

/-- The flag read of `RecordPage._search_after`:
`tx.get_int(block, self._offset(slot))`. -/
def getFlag (rp : RecordPageState) (slot : Int) : Except PyErr Int :=
  if slotOffset rp slot < 0 then .error .negativeIndex
  else Page.get_int rp.page (slotOffset rp slot).toNat

/-- The per-slot field initialisation of `RecordPage.format()`: 0 for
every INTEGER field, "" for every VARCHAR field, at
`offset(slot) + layout.offset(field)`. -/
def formatFields (rp : RecordPageState) (slot : Int) :
    List (String × FieldInfo) → Except PyErr RecordPageState
  | [] => .ok rp
  | f :: fs =>
    let fpos := slotOffset rp slot +
      (((rp.layout.offsets.lookup f.1).getD 0 : Nat) : Int)
    if fpos < 0 then .error .negativeIndex
    else
      match (match f.2.type with
        | .integer => Page.set_int rp.page fpos.toNat 0
        | .varchar => Page.set_string rp.page fpos.toNat []) with
      | .error e => .error e
      | .ok pg => formatFields { rp with page := pg } slot fs

/-- The `while self._is_valid_slot(slot)` loop of `RecordPage.format()`:
write the EMPTY flag, then the field defaults, for each valid slot.
Fuel bounds the Python loop; the theorems use ample fuel. -/
def formatLoop (rp : RecordPageState) (slot : Int) :
    Nat → Except PyErr RecordPageState
  | 0 => .ok rp
  | fuel + 1 =>
    if isValidSlot rp slot then
      match setFlag rp slot 0 with
      | .error e => .error e
      | .ok rp1 =>
        match formatFields rp1 slot rp.layout.schema.fields with
        | .error e => .error e
        | .ok rp2 => formatLoop rp2 (slot + 1) fuel
    else .ok rp

/-- `RecordPage.format()`: the loop from slot 0. -/
def formatRecordPage (rp : RecordPageState) (fuel : Nat) :
    Except PyErr RecordPageState :=
  formatLoop rp 0 fuel

/-- The scan loop of `RecordPage._search_after`: advance while the slot
is valid, returning the first slot whose flag equals the target, else
−1. -/
def searchAfterLoop (rp : RecordPageState) (flag : Int) :
    Int → Nat → Except PyErr Int
  | _, 0 => .ok (-1)
  | slot, fuel + 1 =>
    if isValidSlot rp slot then
      match getFlag rp slot with
      | .error e => .error e
      | .ok v =>
        if v = flag then .ok slot
        else searchAfterLoop rp flag (slot + 1) fuel
    else .ok (-1)

/-- `RecordPage._search_after(slot, flag)`: scan from `slot + 1`. -/
def searchAfter (rp : RecordPageState) (slot flag : Int) (fuel : Nat) :
    Except PyErr Int :=
  searchAfterLoop rp flag (slot + 1) fuel

/-- `RecordPage.insert_after(slot)`: the first EMPTY slot after `slot`
is flipped to USED and returned; −1 when the page is full. -/
def insertAfter (rp : RecordPageState) (slot : Int) (fuel : Nat) :
    Except PyErr (RecordPageState × Int) :=
  match searchAfter rp slot 0 fuel with
  | .error e => .error e
  | .ok newSlot =>
    if 0 ≤ newSlot then
      match setFlag rp newSlot 1 with
      | .error e => .error e
      | .ok rp2 => .ok (rp2, newSlot)
    else .ok (rp, newSlot)

/-- `RecordPage.delete(slot)`: set the slot's flag to EMPTY. -/
def deleteSlot (rp : RecordPageState) (slot : Int) :
    Except PyErr RecordPageState :=
  setFlag rp slot 0

/-- A chain of `insert_after` calls, each starting from the previously
returned slot; returns the final page and the returned slots. -/
def insertChain (rp : RecordPageState) (slot : Int) (fuel : Nat) :
    Nat → Except PyErr (RecordPageState × List Int)
  | 0 => .ok (rp, [])
  | n + 1 =>
    match insertAfter rp slot fuel with
    | .error e => .error e
    | .ok r =>
      match insertChain r.1 r.2 fuel n with
      | .error e => .error e
      | .ok s => .ok (s.1, r.2 :: s.2)

/-- The S5 schema `{A: INTEGER, B: VARCHAR(9)}`. -/
def demoSchema : Schema := ⟨[("A", ⟨.integer, 0⟩), ("B", ⟨.varchar, 9⟩)]⟩

/-- A record page over a zeroed 400-byte block with the S5 layout. -/
def demoRecordPage : RecordPageState :=
  ⟨List.replicate 400 0, layoutFromSchema demoSchema, 400⟩

/-- The freshly formatted S5 page. -/
def formattedDemoPage : RecordPageState :=
  match formatRecordPage demoRecordPage 25 with
  | .error _ => demoRecordPage
  | .ok rp => rp

/-- The S5 page after filling every slot via chained `insert_after`. -/
def fullDemoPage : RecordPageState :=
  match insertChain formattedDemoPage (-1) 25 19 with
  | .error _ => formattedDemoPage
  | .ok r => r.1

/-- Delete slot `k` of a page, then `insert_after(-1)`; true iff the
insert succeeds and returns the freed slot. -/
def deleteReinsertReturnsFreedSlot (rp : RecordPageState) (k : Nat) : Bool :=
  match deleteSlot rp (k : Int) with
  | .error _ => false
  | .ok rpD =>
    match insertAfter rpD (-1) 25 with
    | .error _ => false
    | .ok r => r.2 = (k : Int)

/-!  ## Helper lemmas: association lists  -/

theorem any_key_eq_false_of_lookup_none {α β : Type} [DecidableEq α]
    {m : List (α × β)} {k : α} (h : m.lookup k = none) :
    m.any (fun e => e.1 == k) = false := by
  induction m with
  | nil => rfl
  | cons e t ih =>
    by_cases hek : k = e.1
    · rw [List.lookup] at h
      simp [hek] at h
    · rw [List.lookup] at h
      rw [beq_eq_false_iff_ne.mpr hek] at h
      simp only [List.any_cons, beq_eq_false_iff_ne.mpr (fun hh => hek hh.symm),
        Bool.false_or]
      exact ih h

theorem lookup_append_of_none {α β : Type} [DecidableEq α]
    {m : List (α × β)} {k : α} (h : m.lookup k = none) (l : List (α × β)) :
    (m ++ l).lookup k = l.lookup k := by
  induction m with
  | nil => rfl
  | cons e t ih =>
    by_cases hek : k = e.1
    · rw [List.lookup] at h
      simp [hek] at h
    · rw [List.lookup] at h
      rw [beq_eq_false_iff_ne.mpr hek] at h
      rw [List.cons_append, List.lookup, beq_eq_false_iff_ne.mpr hek]
      exact ih h

theorem assocSet_of_lookup_none {α β : Type} [DecidableEq α]
    {m : List (α × β)} {k : α} (h : m.lookup k = none) (v : β) :
    assocSet m k v = m ++ [(k, v)] := by
  unfold assocSet
  rw [any_key_eq_false_of_lookup_none h]
  simp

theorem lookup_assocSet_none {α β : Type} [DecidableEq α]
    {m : List (α × β)} {k : α} (h : m.lookup k = none) (v : β) :
    (assocSet m k v).lookup k = some v := by
  rw [assocSet_of_lookup_none h, lookup_append_of_none h]
  simp [List.lookup]

/-!  ## Helper lemmas: the 4-byte codec and slice assignment  -/

theorem encodeInt4_length (v : Int) : (encodeInt4 v).length = 4 := rfl

theorem encodeInt4_decodeInt4 {b0 b1 b2 b3 : Nat} (h0 : b0 < 256) (h1 : b1 < 256)
    (h2 : b2 < 256) (h3 : b3 < 256) :
    encodeInt4 (decodeInt4 [b0, b1, b2, b3]) = [b0, b1, b2, b3] := by
  unfold decodeInt4 encodeInt4
  simp only [List.headD_cons, List.drop_succ_cons, List.drop_zero]
  split <;> simp only [List.cons.injEq, and_true] <;> omega

theorem decodeInt4_encodeInt4 {v : Int} (hlo : -2147483648 ≤ v)
    (hhi : v < 2147483648) : decodeInt4 (encodeInt4 v) = v := by
  unfold decodeInt4 encodeInt4
  simp only [List.headD_cons, List.drop_succ_cons, List.drop_zero]
  split <;> omega

theorem decodeInt4_range {b0 b1 b2 b3 : Nat} (h0 : b0 < 256) (h1 : b1 < 256)
    (h2 : b2 < 256) (h3 : b3 < 256) :
    -2147483648 ≤ decodeInt4 [b0, b1, b2, b3] ∧
      decodeInt4 [b0, b1, b2, b3] < 2147483648 := by
  unfold decodeInt4
  simp only [List.headD_cons, List.drop_succ_cons, List.drop_zero]
  split <;> omega

theorem encodeInt4_wf (v : Int) : ByteWF (encodeInt4 v) := by
  unfold encodeInt4 ByteWF
  intro x hx
  simp only [List.mem_cons, List.not_mem_nil, or_false] at hx
  rcases hx with h | h | h | h <;> omega

theorem encode_decode_of_wf {b : PageBuf} (hlen : b.length = 4)
    (hwf : ByteWF b) : encodeInt4 (decodeInt4 b) = b := by
  match b, hlen with
  | [b0, b1, b2, b3], _ =>
    exact encodeInt4_decodeInt4 (hwf b0 (by simp)) (hwf b1 (by simp))
      (hwf b2 (by simp)) (hwf b3 (by simp))

theorem decode_range_of_wf {b : PageBuf} (hlen : b.length = 4)
    (hwf : ByteWF b) : -2147483648 ≤ decodeInt4 b ∧ decodeInt4 b < 2147483648 := by
  match b, hlen with
  | [b0, b1, b2, b3], _ =>
    exact decodeInt4_range (hwf b0 (by simp)) (hwf b1 (by simp))
      (hwf b2 (by simp)) (hwf b3 (by simp))

theorem writeAt_length {p bs : PageBuf} {off : Nat}
    (h : off + bs.length ≤ p.length) : (writeAt p off bs).length = p.length := by
  simp only [writeAt, List.length_append, List.length_take, List.length_drop]
  omega

theorem writeAt_drop_take {p bs : PageBuf} {off : Nat}
    (h : off + bs.length ≤ p.length) :
    ((writeAt p off bs).drop off).take bs.length = bs := by
  unfold writeAt
  rw [List.append_assoc, List.drop_left' (by rw [List.length_take]; omega),
    List.take_left' rfl]

theorem writeAt_restore {p : PageBuf} {off k : Nat} (h : off + k ≤ p.length) :
    writeAt p off ((p.drop off).take k) = p := by
  unfold writeAt
  have hk : ((p.drop off).take k).length = k := by
    rw [List.length_take, List.length_drop]; omega
  rw [hk, ← List.drop_drop, List.append_assoc, List.take_append_drop,
    List.take_append_drop]

theorem writeAt_writeAt {p bs cs : PageBuf} {off : Nat}
    (hlen : cs.length = bs.length) (h : off + bs.length ≤ p.length) :
    writeAt (writeAt p off bs) off cs = writeAt p off cs := by
  have h1 : (writeAt p off bs).take off = p.take off := by
    unfold writeAt
    rw [List.append_assoc, List.take_left' (by rw [List.length_take]; omega)]
  have h2 : (writeAt p off bs).drop (off + cs.length) = p.drop (off + cs.length) := by
    unfold writeAt
    rw [hlen, List.drop_left'
      (by rw [List.length_append, List.length_take]; omega)]
  calc writeAt (writeAt p off bs) off cs
      = (writeAt p off bs).take off ++ cs ++
          (writeAt p off bs).drop (off + cs.length) := rfl
    _ = p.take off ++ cs ++ p.drop (off + cs.length) := by rw [h1, h2]
    _ = writeAt p off cs := rfl

theorem writeAt_drop_of_le {p bs : PageBuf} {off m : Nat}
    (h : off + bs.length ≤ m) (hm : off + bs.length ≤ p.length) :
    (writeAt p off bs).drop m = p.drop m := by
  have hA : (p.take off ++ bs).length = off + bs.length := by
    rw [List.length_append, List.length_take]; omega
  calc List.drop m ((p.take off ++ bs) ++ p.drop (off + bs.length))
      = List.drop ((p.take off ++ bs).length + (m - (off + bs.length)))
          ((p.take off ++ bs) ++ p.drop (off + bs.length)) := by
        congr 1
        rw [hA]; omega
    _ = List.drop (m - (off + bs.length)) (p.drop (off + bs.length)) :=
        List.drop_append _
    _ = List.drop ((off + bs.length) + (m - (off + bs.length))) p :=
        List.drop_drop _ _ _
    _ = List.drop m p := by congr 1; omega

theorem writeAt_wf {p bs : PageBuf} {off : Nat} (hp : ByteWF p)
    (hbs : ByteWF bs) : ByteWF (writeAt p off bs) := by
  unfold writeAt ByteWF
  intro x hx
  simp only [List.mem_append] at hx
  rcases hx with (h | h) | h
  · exact hp x (List.mem_of_mem_take h)
  · exact hbs x h
  · exact hp x (List.mem_of_mem_drop h)

theorem get_int_eq_ok {p : PageBuf} {off : Nat} (h : off + 4 ≤ p.length) :
    Page.get_int p off = .ok (decodeInt4 ((p.drop off).take 4)) := by
  unfold Page.get_int
  rw [if_neg (by omega),
    if_pos (by rw [List.length_take, List.length_drop]; omega)]

theorem set_int_eq_ok {p : PageBuf} {off : Nat} {v : Int}
    (h : off + 4 ≤ p.length) (hlo : -2147483648 ≤ v) (hhi : v < 2147483648) :
    Page.set_int p off v = .ok (writeAt p off (encodeInt4 v)) := by
  unfold Page.set_int
  rw [if_neg (by omega), if_neg (by omega)]

theorem get_int_writeAt_self {p : PageBuf} {off : Nat} {v : Int}
    (h : off + 4 ≤ p.length) (hlo : -2147483648 ≤ v) (hhi : v < 2147483648) :
    Page.get_int (writeAt p off (encodeInt4 v)) off = .ok v := by
  have hlen4 : (writeAt p off (encodeInt4 v)).length = p.length :=
    writeAt_length (by rw [encodeInt4_length]; omega)
  rw [get_int_eq_ok (by rw [hlen4]; omega)]
  have hslice : ((writeAt p off (encodeInt4 v)).drop off).take 4 = encodeInt4 v := by
    have h4 := @writeAt_drop_take p (encodeInt4 v) off
      (by rw [encodeInt4_length]; omega)
    rw [encodeInt4_length] at h4
    exact h4
  rw [hslice, decodeInt4_encodeInt4 hlo hhi]

/-!  ## Helper lemmas: inversion and the single-mutation undo  -/

theorem get_int_ok_inv {p : PageBuf} {off : Nat} {old : Int}
    (h : Page.get_int p off = .ok old) :
    off + 4 ≤ p.length ∧ old = decodeInt4 ((p.drop off).take 4) := by
  unfold Page.get_int at h
  by_cases h1 : p.length ≤ off
  · rw [if_pos h1] at h
    exact absurd h (by simp)
  · rw [if_neg h1] at h
    by_cases h2 : ((p.drop off).take 4).length = 4
    · rw [if_pos h2] at h
      simp only [Except.ok.injEq] at h
      refine ⟨?_, h.symm⟩
      rw [List.length_take, List.length_drop] at h2
      omega
    · rw [if_neg h2] at h
      exact absurd h (by simp)

theorem set_int_ok_inv {p p1 : PageBuf} {off : Nat} {v : Int}
    (h : Page.set_int p off v = .ok p1) :
    off + 4 ≤ p.length ∧ -2147483648 ≤ v ∧ v < 2147483648 ∧
      p1 = writeAt p off (encodeInt4 v) := by
  unfold Page.set_int at h
  by_cases h1 : p.length < off + 4
  · rw [if_pos h1] at h
    exact absurd h (by simp)
  · rw [if_neg h1] at h
    by_cases h2 : v < -2147483648 ∨ 2147483648 ≤ v
    · rw [if_pos h2] at h
      exact absurd h (by simp)
    · rw [if_neg h2] at h
      simp only [Except.ok.injEq] at h
      exact ⟨by omega, by omega, by omega, h.symm⟩

theorem set_int_undo_restores {p p1 : PageBuf} {off : Nat} {v old : Int}
    (hwf : ByteWF p)
    (hget : Page.get_int p off = .ok old)
    (hset : Page.set_int p off v = .ok p1) :
    Page.set_int p1 off old = .ok p := by
  obtain ⟨hb, hold⟩ := get_int_ok_inv hget
  obtain ⟨hb2, hlo, hhi, hp1⟩ := set_int_ok_inv hset
  have hslice_len : ((p.drop off).take 4).length = 4 := by
    rw [List.length_take, List.length_drop]; omega
  have hslice_wf : ByteWF ((p.drop off).take 4) := fun x hx =>
    hwf x (List.mem_of_mem_drop (List.mem_of_mem_take hx))
  obtain ⟨hro, hrh⟩ := decode_range_of_wf hslice_len hslice_wf
  have h1 : p1.length = p.length := by
    rw [hp1, writeAt_length (by rw [encodeInt4_length]; omega)]
  rw [set_int_eq_ok (by omega) (by rw [hold]; exact hro)
    (by rw [hold]; exact hrh)]
  congr 1
  rw [hp1, writeAt_writeAt (by simp [encodeInt4_length])
    (by rw [encodeInt4_length]; omega), hold,
    encode_decode_of_wf hslice_len hslice_wf, writeAt_restore (by omega)]

theorem applyLoggedOp_setInt_inv {txn : Int} {p : PageBuf} {off : Nat}
    {v : Int} {out : PageBuf × LogRec}
    (h : applyLoggedOp txn p (.setIntOp off v) = .ok out) :
    ∃ old, Page.get_int p off = .ok old ∧
      Page.set_int p off v = .ok out.1 ∧ out.2 = .setInt txn off old := by
  have h' : (match Page.get_int p off with
      | Except.error e => Except.error e
      | Except.ok old =>
        match Page.set_int p off v with
        | Except.error e => Except.error e
        | Except.ok p2 => Except.ok (p2, LogRec.setInt txn off old)) =
      Except.ok out := h
  clear h
  split at h'
  · exact Except.noConfusion h'
  · rename_i old hget
    split at h'
    · exact Except.noConfusion h'
    · rename_i p2 hset
      simp only [Except.ok.injEq] at h'
      exact ⟨old, hget, by rw [← h']; exact hset, by rw [← h']⟩

theorem applyLoggedOps_cons_inv {txn : Int} {p : PageBuf} {op : TxOp}
    {ops : List TxOp} {q : PageBuf} {recs : List LogRec}
    (h : applyLoggedOps txn p (op :: ops) = .ok (q, recs)) :
    ∃ r s, applyLoggedOp txn p op = .ok r ∧
      applyLoggedOps txn r.1 ops = .ok s ∧ q = s.1 ∧ recs = r.2 :: s.2 := by
  unfold applyLoggedOps at h
  split at h
  · exact Except.noConfusion h
  · rename_i r hr
    split at h
    · exact Except.noConfusion h
    · rename_i s hs
      simp only [Except.ok.injEq, Prod.mk.injEq] at h
      exact ⟨r, s, hr, hs, h.1.symm, h.2.symm⟩

theorem doRollback_setInt_cons {txn : Int} {p q : PageBuf} {off : Nat}
    {old : Int} (tail : List LogRec) (h : Page.set_int p off old = .ok q) :
    doRollback txn p (.setInt txn off old :: tail) = doRollback txn q tail := by
  have h1 : doRollback txn p (.setInt txn off old :: tail) =
      match Page.set_int p off old with
      | .error e => .error e
      | .ok p2 => doRollback txn p2 tail := by
    simp only [doRollback]
    rw [if_pos (show (LogRec.setInt txn off old).txNumber = txn from rfl)]
    rfl
  rw [h1, h]

theorem doRollback_append_reverse (txn : Int) :
    ∀ (ops : List TxOp) (p q : PageBuf) (recs : List LogRec),
      ByteWF p →
      (∀ op ∈ ops, op.isSetInt = true) →
      applyLoggedOps txn p ops = .ok (q, recs) →
      ∀ tail, doRollback txn q (recs.reverse ++ tail) = doRollback txn p tail := by
  intro ops
  induction ops with
  | nil =>
    intro p q recs hwf hints happly tail
    unfold applyLoggedOps at happly
    simp only [Except.ok.injEq, Prod.mk.injEq] at happly
    obtain ⟨h1, h2⟩ := happly
    subst h1
    rw [← h2]
    simp
  | cons op ops ih =>
    intro p q recs hwf hints happly tail
    cases op with
    | setStringOp off s =>
      have hcontra := hints (TxOp.setStringOp off s) (List.mem_cons_self _ _)
      simp [TxOp.isSetInt] at hcontra
    | setIntOp off v =>
      obtain ⟨r, s2, hop, hops, hq, hrecs⟩ := applyLoggedOps_cons_inv happly
      obtain ⟨old, hget, hset, hrec2⟩ := applyLoggedOp_setInt_inv hop
      have hwf1 : ByteWF r.1 := by
        obtain ⟨-, -, -, hp1⟩ := set_int_ok_inv hset
        rw [hp1]
        exact writeAt_wf hwf (encodeInt4_wf v)
      have hrest := ih r.1 q s2.2 hwf1
        (fun o ho => hints o (List.mem_cons_of_mem _ ho))
        (by rw [hops, hq, Prod.mk.eta])
      rw [hrecs, hrec2, List.reverse_cons, List.append_assoc,
        List.singleton_append, hrest (.setInt txn off old :: tail),
        doRollback_setInt_cons tail (set_int_undo_restores hwf hget hset)]

/-!  ## Helper lemmas: the log record-placement step  -/

theorem logWriteRecordAt_spec (p record : PageBuf) (rp : Int) (bs : Nat)
    (hlen : p.length = bs) (hrp4 : 4 ≤ rp)
    (hfit : rp + ((record.length : Nat) : Int) + 4 ≤ (bs : Int))
    (hbs2 : (bs : Int) < 2147483648) :
    ∃ pg3, logWriteRecordAt p rp record = .ok pg3 ∧
      pg3.length = bs ∧
      Page.get_int pg3 0 = .ok rp ∧
      (pg3.drop (rp.toNat + 4)).take record.length = record := by
  have hn : rp = (rp.toNat : Int) := by omega
  have hfitn : rp.toNat + 4 + record.length ≤ bs := by omega
  have hbsn : 8 ≤ bs := by omega
  have hsetlen : Page.set_int p rp.toNat ((record.length : Nat) : Int) =
      .ok (writeAt p rp.toNat (encodeInt4 (record.length : Int))) :=
    set_int_eq_ok (by omega) (by omega) (by omega)
  have hp1len : (writeAt p rp.toNat (encodeInt4 (record.length : Int))).length = bs := by
    rw [writeAt_length (by rw [encodeInt4_length]; omega)]
    exact hlen
  have hsb : Page.set_bytes p rp.toNat record =
      .ok (writeAt (writeAt p rp.toNat (encodeInt4 (record.length : Int)))
        (rp.toNat + 4) record) := by
    unfold Page.set_bytes
    rw [if_neg (by omega), hsetlen]
    rfl
  have hp2len : (writeAt (writeAt p rp.toNat (encodeInt4 (record.length : Int)))
      (rp.toNat + 4) record).length = bs := by
    rw [writeAt_length (by omega)]
    exact hp1len
  have hsi : Page.set_int (writeAt (writeAt p rp.toNat
        (encodeInt4 (record.length : Int))) (rp.toNat + 4) record) 0 rp =
      .ok (writeAt (writeAt (writeAt p rp.toNat
        (encodeInt4 (record.length : Int))) (rp.toNat + 4) record) 0
        (encodeInt4 rp)) :=
    set_int_eq_ok (by omega) (by omega) (by omega)
  refine ⟨writeAt (writeAt (writeAt p rp.toNat
      (encodeInt4 (record.length : Int))) (rp.toNat + 4) record) 0
      (encodeInt4 rp), ?_, ?_, ?_, ?_⟩
  · unfold logWriteRecordAt
    rw [if_neg (by omega)]
    simp only [hsb, hsi]
  · rw [writeAt_length (by rw [encodeInt4_length]; omega)]
    exact hp2len
  · exact get_int_writeAt_self (by omega) (by omega) (by omega)
  · rw [writeAt_drop_of_le (by rw [encodeInt4_length]; omega)
      (by rw [encodeInt4_length]; omega)]
    exact writeAt_drop_take (by omega)

/-!  ## C1: txnums assigned at `Transaction` construction  -/

/-- C1 (code evaluation at the failing input).  Constructing two
transactions in sequence from the initial class state gives *both* the
txnum 1, and the class attribute is still 0 afterwards: `self._next_txnum
+= 1` creates an instance attribute instead of bumping the shared
counter, so txnums are neither unique nor increasing. -/
theorem c1_txnum_both_one :
    (transactionNew transactionClassInit).1.txnum = 1 ∧
    (transactionNew (transactionNew transactionClassInit).2).1.txnum = 1 ∧
    (transactionNew (transactionNew transactionClassInit).2).2.next_txnum = 0 := by
  decide

/-!  ## C10: bounds guards of `Page.get_int` versus `Page.set_int`  -/

/-- C10. `Page.get_int`'s guard only rejects `offset >= len(buf)`; for
`len(buf) - 4 < offset < len(buf)` the call passes the bounds check and
fails unpacking the truncated slice (`struct.error`), not with the
"Offset is out of bounds" `ValueError`.  `Page.set_int` instead rejects
every offset with `offset + 4 > len(buf)` up front with its
`ValueError`, before writing. -/
theorem c10_get_int_short_slice_struct_error (p : PageBuf) (o : Nat) (v : Int)
    (h1 : o < p.length) (h2 : p.length < o + 4) :
    Page.get_int p o = .error .structError ∧
    Page.set_int p o v =
      .error (.valueError "Byte buffer too small to set the given integer") := by
  constructor
  · unfold Page.get_int
    rw [if_neg (by omega)]
    have hlen : ((p.drop o).take 4).length = p.length - o := by
      simp [List.length_take, List.length_drop]
      omega
    rw [if_neg (by omega)]
  · unfold Page.set_int
    rw [if_pos (by omega)]

/-- Witness for C10: an 6-byte page read/written at offset 3. -/
theorem c10_get_int_short_slice_struct_error_witness :
    Page.get_int [0, 0, 0, 0, 0, 0] 3 = .error .structError ∧
    Page.set_int [0, 0, 0, 0, 0, 0] 3 7 =
      .error (.valueError "Byte buffer too small to set the given integer") :=
  c10_get_int_short_slice_struct_error [0, 0, 0, 0, 0, 0] 3 7
    (by decide) (by decide)

/-!  ## C2: WAL ordering in `Buffer.flush`  -/

/-- C2. For a dirty frame (`txnum ≥ 0`) bound to a block, `Buffer.flush`
writes the page to the data block only after the log manager has been
flushed up to the frame's recorded LSN: the emitted trace ends with the
data write, everything before it is a log-page write, and the log
durability bound stamped on the data write is at least the frame's LSN. -/
theorem c2_wal_dirty_write_after_log_flush (b : BufferFrameStatus)
    (lm : LogFlushView) (blk : BlockId)
    (hdirty : 0 ≤ b.txnum) (hblk : b.block_id = some blk)
    (hlsn : b.lsn ≤ lm.latest_lsn) :
    ∃ pre d, (bufferFlush b lm).2.2 = pre ++ [.dataWrite blk d] ∧
      b.lsn ≤ d ∧ (∀ e ∈ pre, ∃ s, e = FlushEvent.logPageWrite s) ∧
      (bufferFlush b lm).2.1.last_saved_lsn = d := by
  unfold bufferFlush logManagerFlush
  rw [if_pos hdirty]
  simp only [hblk]
  by_cases hc : lm.last_saved_lsn ≤ b.lsn
  · rw [if_pos hc]
    refine ⟨[.logPageWrite lm.latest_lsn], lm.latest_lsn, rfl, hlsn, ?_, rfl⟩
    intro e he
    simp only [List.mem_singleton] at he
    exact ⟨_, he⟩
  · rw [if_neg hc]
    refine ⟨[], lm.last_saved_lsn, rfl, by omega, ?_, rfl⟩
    intro e he
    simp at he

/-- Witness for C2: a frame dirtied by transaction 1 with LSN 2, log
manager at `latest_lsn = 5`, `last_saved_lsn = 0`. -/
theorem c2_wal_dirty_write_after_log_flush_witness :
    ∃ pre d,
      (bufferFlush ⟨some ⟨"testfile", 1⟩, 1, 2⟩ ⟨5, 0⟩).2.2 =
        pre ++ [.dataWrite ⟨"testfile", 1⟩ d] ∧
      (2 : Int) ≤ d ∧ (∀ e ∈ pre, ∃ s, e = FlushEvent.logPageWrite s) ∧
      (bufferFlush ⟨some ⟨"testfile", 1⟩, 1, 2⟩ ⟨5, 0⟩).2.1.last_saved_lsn = d :=
  c2_wal_dirty_write_after_log_flush ⟨some ⟨"testfile", 1⟩, 1, 2⟩ ⟨5, 0⟩
    ⟨"testfile", 1⟩ (by decide) rfl (by decide)

/-!  ## C4: `BufferManager.pin` aborts before the timeout  -/

/-- C4 (code evaluation at the failing input).  When no frame can be
pinned (`_try_to_pin` returns `None`) and the elapsed time at the first
guard check has not yet exceeded `MAX_TIME`, `pin` raises
`BufferAbortError` immediately, performing zero waits on the condition
variable — for every wait environment, clock continuation and fuel.  The
guard `while buffer is None and self._waiting_too_long(timestamp)` is
the inverse of "retry until timeout": the spec's required behaviour
(wait, retry, abort only after the timeout) never happens. -/
theorem c4_pin_aborts_before_timeout (pool : BufferPool) (blk : BlockId)
    (wait : Nat → BufferPool → BufferPool) (clock : Nat → Nat) (fuel : Nat)
    (hfull : tryToPin pool blk = none) (hclock : clock 0 ≤ MAX_TIME) :
    bufferManagerPin pool blk wait clock fuel = .abort pool 0 := by
  unfold bufferManagerPin
  rw [hfull]
  unfold pinLoop
  rw [if_neg (show ¬(waiting_too_long (clock 0) = true) by
    simp only [waiting_too_long, MAX_TIME, decide_eq_true_eq]
    simp only [MAX_TIME] at hclock
    omega)]

/-- Witness for C4: a one-frame pool whose frame is pinned to another
block, first guard check at elapsed time 0. -/
theorem c4_pin_aborts_before_timeout_witness :
    bufferManagerPin ⟨[⟨some ⟨"f", 0⟩, 1⟩], 0, 0⟩ ⟨"f", 1⟩
      (fun _ p => p) (fun _ => 0) 3 = .abort ⟨[⟨some ⟨"f", 0⟩, 1⟩], 0, 0⟩ 0 :=
  c4_pin_aborts_before_timeout ⟨[⟨some ⟨"f", 0⟩, 1⟩], 0, 0⟩ ⟨"f", 1⟩
    (fun _ p => p) (fun _ => 0) 3 (by decide) (by decide)

/-!  ## C5: does `recover` release locks and unpin frames?  -/

/-- C5 counterexample: a transaction holding an S-lock and a pin on one
block still holds both after `Transaction.recover()` — the claim that
`recover` releases all locks and unpins all frames "exactly as commit
and rollback do" is false at this input. -/
theorem c5_recover_keeps_locks_and_pins :
    ¬ ((transactionRecover
          ⟨7, [(⟨"testfile", 1⟩, .S)], [⟨"testfile", 1⟩], []⟩).locks = [] ∧
       (transactionRecover
          ⟨7, [(⟨"testfile", 1⟩, .S)], [⟨"testfile", 1⟩], []⟩).pins = []) := by
  decide

/-- C5 amended: `commit` and `rollback` release all locks and unpin all
frames, but `recover` — which only flushes the transaction's buffers and
runs the recovery manager — leaves the lock map and the pin list
unchanged. -/
theorem c5_amended_terminal_cleanup (t : TxLifecycleState) :
    (transactionCommit t).locks = [] ∧ (transactionCommit t).pins = [] ∧
    (transactionRollback t).locks = [] ∧ (transactionRollback t).pins = [] ∧
    (transactionRecover t).locks = t.locks ∧
    (transactionRecover t).pins = t.pins := by
  simp [transactionCommit, transactionRollback, transactionRecover,
    bufferListUnpinAll, concurrencyRelease, recoveryCommit,
    recoveryRollback, recoveryRecover]

/-!  ## C6: `Transaction.unpin` and the pool's available count  -/

/-- C6 (code evaluation at the failing input).  A transaction holding
one pin on one block calls `BufferList.unpin`: the local occurrence is
removed and the frame's pin count reaches zero, but — because the code
calls the frame's own `unpin` instead of `BufferManager.unpin` — the
pool's `_num_available` stays 0 and no waiter is notified, while
`BufferManager.unpin` on the same frame would have set available to 1
and notified. -/
theorem c6_unpin_bypasses_buffer_manager :
    (bufferListUnpin ⟨[(⟨"testfile", 1⟩, 0)], [⟨"testfile", 1⟩]⟩
        ⟨[⟨some ⟨"testfile", 1⟩, 1⟩], 0, 0⟩ ⟨"testfile", 1⟩).1.pins = [] ∧
    (bufferListUnpin ⟨[(⟨"testfile", 1⟩, 0)], [⟨"testfile", 1⟩]⟩
        ⟨[⟨some ⟨"testfile", 1⟩, 1⟩], 0, 0⟩ ⟨"testfile", 1⟩).1.buffers = [] ∧
    (bufferListUnpin ⟨[(⟨"testfile", 1⟩, 0)], [⟨"testfile", 1⟩]⟩
        ⟨[⟨some ⟨"testfile", 1⟩, 1⟩], 0, 0⟩ ⟨"testfile", 1⟩).2.frames =
      [⟨some ⟨"testfile", 1⟩, 0⟩] ∧
    (bufferListUnpin ⟨[(⟨"testfile", 1⟩, 0)], [⟨"testfile", 1⟩]⟩
        ⟨[⟨some ⟨"testfile", 1⟩, 1⟩], 0, 0⟩ ⟨"testfile", 1⟩).2.num_available = 0 ∧
    (bufferListUnpin ⟨[(⟨"testfile", 1⟩, 0)], [⟨"testfile", 1⟩]⟩
        ⟨[⟨some ⟨"testfile", 1⟩, 1⟩], 0, 0⟩ ⟨"testfile", 1⟩).2.notify_count = 0 ∧
    (bufferManagerUnpin ⟨[⟨some ⟨"testfile", 1⟩, 1⟩], 0, 0⟩ 0).num_available = 1 ∧
    (bufferManagerUnpin ⟨[⟨some ⟨"testfile", 1⟩, 1⟩], 0, 0⟩ 0).notify_count = 1 := by
  decide

/-!  ## C7: the log-block boundary invariant of `LogManager.append`  -/

/-- C7. For a record of at most `block_size - 8` bytes, `append` keeps
the log-block invariant: afterwards the integer at bytes 0..3 of the
current page is the byte offset `pos` of the record just written, with
`4 ≤ pos` and the record's length-prefixed bytes inside the block; and
when the record does not fit (`boundary - (len + 4) < 4`) the current
page is first flushed to its block and a fresh block is appended whose
page has boundary initialized to `block_size`, while otherwise no disk
write happens and the block number is unchanged. -/
theorem c7_log_append_boundary_invariant (st : LogMgrState) (record : PageBuf)
    (bd : Int)
    (hlen : st.log_page.length = st.block_size)
    (hbs : 8 ≤ st.block_size)
    (hbs2 : (st.block_size : Int) < 2147483648)
    (hbd : Page.get_int st.log_page 0 = .ok bd)
    (hbd4 : 4 ≤ bd) (hbdle : bd ≤ (st.block_size : Int))
    (hsmall : record.length + 8 ≤ st.block_size) :
    ∃ st' pos,
      logAppend st record = .ok (st', st'.latest_lsn) ∧
      st'.latest_lsn = st.latest_lsn + 1 ∧
      st'.block_size = st.block_size ∧
      st'.log_page.length = st'.block_size ∧
      Page.get_int st'.log_page 0 = .ok pos ∧
      4 ≤ pos ∧ pos + ((record.length : Int) + 4) ≤ (st'.block_size : Int) ∧
      (st'.log_page.drop (pos.toNat + 4)).take record.length = record ∧
      (bd - ((record.length : Int) + 4) < 4 →
        st'.current_block_num = st.current_block_num + 1 ∧
        st'.disk = st.disk ++ [(st.current_block_num, st.log_page),
          (st.current_block_num + 1,
            writeAt st.log_page 0 (encodeInt4 (st.block_size : Int)))] ∧
        pos = (st.block_size : Int) - ((record.length : Int) + 4)) ∧
      (4 ≤ bd - ((record.length : Int) + 4) →
        st'.current_block_num = st.current_block_num ∧
        st'.disk = st.disk ∧
        pos = bd - ((record.length : Int) + 4)) := by
  by_cases hc : bd - ((record.length : Int) + 4) < 4
  · have hset : Page.set_int st.log_page 0 (st.block_size : Int) =
        .ok (writeAt st.log_page 0 (encodeInt4 (st.block_size : Int))) :=
      set_int_eq_ok (by omega) (by omega) hbs2
    have hpg0len : (writeAt st.log_page 0
        (encodeInt4 (st.block_size : Int))).length = st.block_size := by
      rw [writeAt_length (by rw [encodeInt4_length]; omega)]
      exact hlen
    have hread0 : Page.get_int (writeAt st.log_page 0
        (encodeInt4 (st.block_size : Int))) 0 = .ok (st.block_size : Int) :=
      get_int_writeAt_self (by omega) (by omega) hbs2
    obtain ⟨pg3, hw, hlen3, hget3, hrec3⟩ :=
      logWriteRecordAt_spec (writeAt st.log_page 0
          (encodeInt4 (st.block_size : Int))) record
        ((st.block_size : Int) - ((record.length : Int) + 4)) st.block_size
        hpg0len (by omega) (by omega) hbs2
    refine ⟨{ block_size := st.block_size,
              log_page := pg3,
              current_block_num := st.current_block_num + 1,
              latest_lsn := st.latest_lsn + 1,
              disk := (st.disk ++ [(st.current_block_num, st.log_page)]) ++
                [(st.current_block_num + 1,
                  writeAt st.log_page 0 (encodeInt4 (st.block_size : Int)))],
              last_saved_lsn := st.latest_lsn },
      (st.block_size : Int) - ((record.length : Int) + 4),
      ?_, rfl, rfl, hlen3, hget3, by omega, by dsimp only; omega, hrec3, ?_, ?_⟩
    · simp only [logAppend, hbd, if_pos hc, logFlushState, appendNewBlock,
        hset, hread0, hw]
    · intro _
      refine ⟨rfl, by simp, rfl⟩
    · intro h4
      exact absurd h4 (by omega)
  · obtain ⟨pg3, hw, hlen3, hget3, hrec3⟩ :=
      logWriteRecordAt_spec st.log_page record
        (bd - ((record.length : Int) + 4)) st.block_size
        hlen (by omega) (by omega) hbs2
    refine ⟨{ st with log_page := pg3, latest_lsn := st.latest_lsn + 1 },
      bd - ((record.length : Int) + 4),
      ?_, rfl, rfl, hlen3, hget3, by omega, by dsimp only; omega, hrec3, ?_, ?_⟩
    · simp only [logAppend, hbd, if_neg hc, hw]
    · intro h
      exact absurd h hc
    · intro _
      exact ⟨rfl, rfl, rfl⟩

/-- Witness for C7: the bootstrapped 16-byte-block log manager and a
3-byte record. -/
theorem c7_log_append_boundary_invariant_witness :
    ∃ st' pos,
      logAppend logBootState16 [7, 7, 7] = .ok (st', st'.latest_lsn) ∧
      st'.latest_lsn = logBootState16.latest_lsn + 1 ∧
      st'.block_size = logBootState16.block_size ∧
      st'.log_page.length = st'.block_size ∧
      Page.get_int st'.log_page 0 = .ok pos ∧
      4 ≤ pos ∧
      pos + ((([7, 7, 7] : PageBuf).length : Int) + 4) ≤ (st'.block_size : Int) ∧
      (st'.log_page.drop (pos.toNat + 4)).take ([7, 7, 7] : PageBuf).length =
        [7, 7, 7] ∧
      ((16 : Int) - ((([7, 7, 7] : PageBuf).length : Int) + 4) < 4 →
        st'.current_block_num = logBootState16.current_block_num + 1 ∧
        st'.disk = logBootState16.disk ++
          [(logBootState16.current_block_num, logBootState16.log_page),
           (logBootState16.current_block_num + 1,
             writeAt logBootState16.log_page 0
               (encodeInt4 (logBootState16.block_size : Int)))] ∧
        pos = (logBootState16.block_size : Int) -
          ((([7, 7, 7] : PageBuf).length : Int) + 4)) ∧
      (4 ≤ (16 : Int) - ((([7, 7, 7] : PageBuf).length : Int) + 4) →
        st'.current_block_num = logBootState16.current_block_num ∧
        st'.disk = logBootState16.disk ∧
        pos = (16 : Int) - ((([7, 7, 7] : PageBuf).length : Int) + 4)) :=
  c7_log_append_boundary_invariant logBootState16 [7, 7, 7] 16
    (by decide) (by decide) (by decide) rfl (by decide) (by decide)
    (by decide)

/-!  ## C3: rollback and bit-identity of the block  -/

/-- C3 counterexample: on a zeroed 8-byte block, a single logged
`set_string` of `"abc"` followed by rollback leaves the block
different from its original contents — the undo rewrites the old
length prefix (length 0) but not the 3 content bytes the new, longer
string wrote, so byte 4 still holds `97`.  The claim's extension of
bit-identity to `set_string` sequences is false at this input. -/
theorem c3_set_string_rollback_not_bit_identical :
    applyLoggedOps 7 (List.replicate 8 0) [.setStringOp 0 [97, 98, 99]] =
      .ok ([0, 0, 0, 3, 97, 98, 99, 0], [.setString 7 0 []]) ∧
    doRollback 7 [0, 0, 0, 3, 97, 98, 99, 0]
      ([LogRec.setString 7 0 []].reverse ++ [.start 7]) =
      .ok [0, 0, 0, 0, 97, 98, 99, 0] ∧
    ([0, 0, 0, 0, 97, 98, 99, 0] : PageBuf) ≠ List.replicate 8 0 :=
  ⟨rfl, rfl, by decide⟩

/-- C3 amended: for a sequence of logged `set_int` mutations of one
block followed by rollback, the block's bytes are restored exactly:
`_do_rollback` walks the transaction's records newest-first, each undo
writes back the recorded old value (the 4-byte codec is a bijection on
byte level), and the walk stops at the transaction's START record. -/
theorem c3_amended_set_int_rollback_bit_identical (txn : Int) (p q : PageBuf)
    (ops : List TxOp) (recs rest : List LogRec)
    (hwf : ByteWF p)
    (hints : ∀ op ∈ ops, op.isSetInt = true)
    (happly : applyLoggedOps txn p ops = .ok (q, recs)) :
    doRollback txn q (recs.reverse ++ .start txn :: rest) = .ok p := by
  rw [doRollback_append_reverse txn ops p q recs hwf hints happly
    (.start txn :: rest)]
  simp only [doRollback]
  rw [if_pos (show (LogRec.start txn).txNumber = txn from rfl)]

/-- Witness for C3 (amended): two logged `set_int`s on a zeroed 8-byte
block, then rollback, restores the zeroed block. -/
theorem c3_amended_set_int_rollback_bit_identical_witness :
    doRollback 7 [0, 0, 0, 5, 0, 0, 0, 6]
      ([LogRec.setInt 7 0 0, LogRec.setInt 7 4 0].reverse ++ [.start 7]) =
      .ok (List.replicate 8 0) :=
  c3_amended_set_int_rollback_bit_identical 7 (List.replicate 8 0)
    [0, 0, 0, 5, 0, 0, 0, 6] [.setIntOp 0 5, .setIntOp 4 6]
    [.setInt 7 0 0, .setInt 7 4 0] []
    (by unfold ByteWF; decide) (by decide) rfl

/-!  ## C8: the S5 record-page scenario  -/

set_option maxRecDepth 100000

/-- C8. For the schema `{A: INTEGER, B: VARCHAR(9)}` on a 400-byte
block the slot size is `4 + 4 + (4 + 9) = 21`; on a freshly formatted
page, 19 chained `insert_after` calls starting from slot −1 succeed and
return slots 0..18; the next `insert_after` returns −1; and after
`delete` of any used slot a subsequent `insert_after(-1)` succeeds and
returns exactly that freed slot. -/
theorem c8_record_page_s5_scenario :
    (layoutFromSchema demoSchema).slot_size = 21 ∧
    formatRecordPage demoRecordPage 25 = .ok formattedDemoPage ∧
    insertChain formattedDemoPage (-1) 25 19 =
      .ok (fullDemoPage, (List.range 19).map (fun n => (n : Int))) ∧
    (insertAfter fullDemoPage (-1) 25).map (fun r => r.2) = .ok (-1) ∧
    (List.range 19).all
      (fun k => deleteReinsertReturnsFreedSlot fullDemoPage k) = true :=
  ⟨rfl, rfl, rfl, rfl, by decide⟩

/-!  ## C9: data access on a block the transaction has not pinned  -/

/-- C9. On a block the transaction has not pinned (and, as in the
claim's scenario, holds no lock on, with the block free in the global
table so the lock acquisition succeeds), each of `get_int`,
`get_string`, `set_int` and `set_string` raises the bare `RuntimeError`
from `BufferList.get_buffer` — it neither implicitly pins the block
(`_buffers` and `_pins` are unchanged) nor returns a value. -/
theorem c9_access_unpinned_block_runtime_error (st : TxDataState)
    (blk : BlockId) (off : Nat) (v : Int) (s : PageBuf)
    (hnotpinned : st.buffers.lookup blk = none)
    (hnolock : st.conc.lookup blk = none)
    (hfree : st.table.locks.lookup blk = none) :
    (transactionGetInt st blk off).2 = .error .runtimeError ∧
    (transactionGetString st blk off).2 = .error .runtimeError ∧
    (transactionSetInt st blk off v true).2 = .error .runtimeError ∧
    (transactionSetString st blk off s true).2 = .error .runtimeError ∧
    (transactionGetInt st blk off).1.buffers = st.buffers ∧
    (transactionGetInt st blk off).1.pins = st.pins ∧
    (transactionSetInt st blk off v true).1.buffers = st.buffers ∧
    (transactionSetInt st blk off v true).1.pins = st.pins := by
  have hs : lockTableSlock st.table blk =
      .ok ⟨assocSet st.table.locks blk 1⟩ := by
    unfold lockTableSlock lockVal
    rw [hfree]
    norm_num
  have hs2 : concMgrSlock st.conc st.table blk =
      .ok ((blk, .S) :: st.conc, ⟨assocSet st.table.locks blk 1⟩) := by
    unfold concMgrSlock
    rw [hnolock, hs]
  have hlv : lockVal ⟨assocSet st.table.locks blk 1⟩ blk = 1 := by
    unfold lockVal
    rw [lookup_assocSet_none hfree]
    rfl
  have hx : lockTableXlock ⟨assocSet st.table.locks blk 1⟩ blk =
      .ok ⟨assocSet (assocSet st.table.locks blk 1) blk (-1)⟩ := by
    unfold lockTableXlock
    rw [hlv, if_neg (by omega)]
  have hx2 : concMgrXlock st.conc st.table blk =
      .ok (assocSet ((blk, .S) :: st.conc) blk .X,
        ⟨assocSet (assocSet st.table.locks blk 1) blk (-1)⟩) := by
    unfold concMgrXlock
    rw [if_neg (by rw [hnolock]; simp)]
    simp only [hs2, hx]
  have hbuf : ∀ c t, bufferListGetBuffer { st with conc := c, table := t } blk =
      .error .runtimeError := by
    intro c t
    unfold bufferListGetBuffer
    simp only [hnotpinned]
  refine ⟨?_, ?_, ?_, ?_, ?_, ?_, ?_, ?_⟩ <;>
    simp only [transactionGetInt, transactionGetString, transactionSetInt,
      transactionSetString, hs2, hx2, hbuf]

/-- Witness for C9: an empty transaction state accessing a block it
never pinned. -/
theorem c9_access_unpinned_block_runtime_error_witness :
    (transactionGetInt ⟨[], ⟨[]⟩, [], []⟩ ⟨"testfile", 1⟩ 0).2 =
      .error .runtimeError ∧
    (transactionGetString ⟨[], ⟨[]⟩, [], []⟩ ⟨"testfile", 1⟩ 0).2 =
      .error .runtimeError ∧
    (transactionSetInt ⟨[], ⟨[]⟩, [], []⟩ ⟨"testfile", 1⟩ 0 5 true).2 =
      .error .runtimeError ∧
    (transactionSetString ⟨[], ⟨[]⟩, [], []⟩ ⟨"testfile", 1⟩ 0 [97] true).2 =
      .error .runtimeError ∧
    (transactionGetInt ⟨[], ⟨[]⟩, [], []⟩ ⟨"testfile", 1⟩ 0).1.buffers = [] ∧
    (transactionGetInt ⟨[], ⟨[]⟩, [], []⟩ ⟨"testfile", 1⟩ 0).1.pins = [] ∧
    (transactionSetInt ⟨[], ⟨[]⟩, [], []⟩ ⟨"testfile", 1⟩ 0 5 true).1.buffers = [] ∧
    (transactionSetInt ⟨[], ⟨[]⟩, [], []⟩ ⟨"testfile", 1⟩ 0 5 true).1.pins = [] :=
  c9_access_unpinned_block_runtime_error ⟨[], ⟨[]⟩, [], []⟩ ⟨"testfile", 1⟩
    0 5 [97] rfl rfl rfl

end SimpleDB
